import Mathlib

/-!
Verification of the contest repository (linuxboot/contest, vjt fork):
a shallow embedding of the job-descriptor validation and versioning layer
(pkg/job), the admin-server log-query layer (cmds/admin_server/server),
the exec test-step plugin (plugins/teststeps/exec), and a spec-derived
model of the pipeline orchestrator's target accounting and job state
machine.

Go's `error` results are modelled as `Option String`: `none` is a nil
error, `some msg` a non-nil error carrying the message.  Go strings are
Lean `String`s; where Go code walks bytes we walk `String.data`.
-/

/-! ## Models of Go standard-library functions used by the sources -/

/-- Go `strings.Split(s, ".")` on the character list of `s`: cuts at every
`'.'`; the empty string yields one empty field. -/
def goSplitDot : List Char → List (List Char)
  | [] => [[]]
  | c :: rest =>
    if c = '.' then [] :: goSplitDot rest
    else
      match goSplitDot rest with
      | [] => [[c]]
      | h :: t => (c :: h) :: t

/-- Value of an all-digit character list read in base 10. -/
def digitsVal (ds : List Char) : Nat :=
  ds.foldl (fun a c => a * 10 + (c.toNat - 48)) 0

/-- Core of Go `strconv.Atoi` after the sign has been stripped: the rest
must be a non-empty run of decimal digits; results outside the `int64`
range are a range error (`none`). -/
def goAtoiCore (neg : Bool) (ds : List Char) : Option Int :=
  if ds.isEmpty then none
  else if ds.all Char.isDigit then
    let v : Int := if neg then -(digitsVal ds : Int) else (digitsVal ds : Int)
    if v < -(2 ^ 63) ∨ (2 ^ 63 - 1 : Int) < v then none else some v
  else none

/-- Go `strconv.Atoi` (= `ParseInt(s, 10, 0)` on a 64-bit platform): an
optional single `+`/`-` sign followed by at least one decimal digit,
nothing else; `none` is a parse or range error. -/
def goAtoi (s : String) : Option Int :=
  match s.data with
  | [] => none
  | '-' :: rest => goAtoiCore true rest
  | '+' :: rest => goAtoiCore false rest
  | l => goAtoiCore false l

/-- Go `unicode.IsSpace`: the Unicode White_Space property, by code
point (TAB, LF, VT, FF, CR, SPACE, NEL, NBSP, OGHAM SPACE MARK, the
EN QUAD through HAIR SPACE block, LINE and PARAGRAPH SEPARATOR, NARROW
NBSP, MEDIUM MATHEMATICAL SPACE, IDEOGRAPHIC SPACE). -/
def goIsSpace (c : Char) : Bool :=
  let n := c.toNat
  n == 0x09 || n == 0x0a || n == 0x0b || n == 0x0c || n == 0x0d ||
  n == 0x20 || n == 0x85 || n == 0xa0 || n == 0x1680 ||
  (0x2000 <= n && n <= 0x200a) ||
  n == 0x2028 || n == 0x2029 || n == 0x202f || n == 0x205f || n == 0x3000

/-- Go slice indexing `l[i]` with an `int` index: `none` models the
run-time panic when `i` is negative or past the end. -/
def goIndex (l : List String) (i : Int) : Option String :=
  if i < 0 then none else l.get? i.toNat

namespace Job

/-! ## pkg/job: descriptor validation and versioning
Embedded from src/cmds/admin_server/server/server.go (the `job` package
part of the sample: `Descriptor`, `Validate`, `CheckVersion`,
`CurrentDescriptorVersion`, `State`, `State.String`). -/

/-- `JobDescriptorMajorVersion` constant. -/
def JobDescriptorMajorVersion : Nat := 1

/-- `JobDescriptorMinorVersion` constant. -/
def JobDescriptorMinorVersion : Nat := 0

/-- A `test.TestDescriptor` (package `test`, external to the validated
code): `Validate` only looks at how many there are, so its fields are
irrelevant here. -/
structure TestDescriptor where
  raw : Unit

/-- One reporter binding as `Validate` sees it: only the `Name` field is
read. -/
structure ReporterConfig where
  name : String

/-- The `Reporting` section of a job descriptor: run reporters and final
reporters. -/
structure Reporting where
  runReporters : List ReporterConfig
  finalReporters : List ReporterConfig

/-- `job.Descriptor`: the deserialized job-creation request.
`RunInterval` is an `xjson.Duration` (an `int64` nanosecond count), the
two target-manager timeouts are optional. -/
structure Descriptor where
  jobName : String
  version : String
  tags : List String
  runs : Nat
  runInterval : Int
  testDescriptors : List TestDescriptor
  reporting : Reporting
  targetManagerAcquireTimeout : Option Int
  targetManagerReleaseTimeout : Option Int

/-- `Descriptor.Validate`: sanity checks on the job descriptor, in source
order.  `strings.TrimSpace(name) == ""` is rendered as: every character
of the name is white space (vacuously true of the empty name). -/
def Descriptor.validate (d : Descriptor) : Option String :=
  if d.testDescriptors.length = 0 then
    some "need at least one TestDescriptor in the JobDescriptor"
  else if d.jobName = "" then
    some "job name cannot be empty"
  else if d.runInterval < 0 then
    some "run interval must be non-negative"
  else if d.reporting.runReporters.length = 0 ∧
          d.reporting.finalReporters.length = 0 then
    some "at least one run reporter or one final reporter must be specified in a job"
  else if d.reporting.runReporters.any (fun r => r.name.data.all goIsSpace) then
    some "run reporters cannot have empty or all-whitespace names"
  else
    none

/-- `Descriptor.CheckVersion`: the version string must split on `"."`
into exactly two `Atoi`-parseable numbers, the major equal to the
supported major and the minor not above the supported minor. -/
def checkVersion (version : String) : Option String :=
  if version = "" then
    some "version Error: Empty Job Descriptor Version Field"
  else
    match (goSplitDot version.data).map (fun cs => String.mk cs) with
    | [a, b] =>
      match goAtoi a with
      | none => some "version Error: invalid syntax"
      | some majorVersion =>
        match goAtoi b with
        | none => some "version Error: invalid syntax"
        | some minorVersion =>
          if majorVersion ≠ (JobDescriptorMajorVersion : Int) ∨
             minorVersion > (JobDescriptorMinorVersion : Int) then
            some "version Error: The Job Descriptor Version is not compatible with the server"
          else
            none
    | _ => some "version Error: Incorrect Job Descriptor Version"

/-- `CurrentDescriptorVersion`: `fmt.Sprintf("%d.%d", major, minor)`. -/
def CurrentDescriptorVersion : String :=
  toString JobDescriptorMajorVersion ++ "." ++ toString JobDescriptorMinorVersion

/-- `job.State` (`type State int`): the nine constants declared with
`iota`, in source order. -/
inductive State where
  | unknown
  | started
  | completed
  | failed
  | paused
  | pauseFailed
  | cancelling
  | cancelled
  | cancellationFailed
deriving DecidableEq, Repr, Fintype

/-- Ordinal of each `State` constant under `iota` (`JobStateUnknown = 0`
through `JobStateCancellationFailed = 8`). -/
def State.ord : State → Int
  | .unknown => 0
  | .started => 1
  | .completed => 2
  | .failed => 3
  | .paused => 4
  | .pauseFailed => 5
  | .cancelling => 6
  | .cancelled => 7
  | .cancellationFailed => 8

/-- The array literal inside `State.String`.  Entry 0 is the string
literal `"JobStateUnknown"`; entries 1–8 are the job-event name constants
(`EventJobStarted` … `EventJobCancellationFailed`), which live in the
events file of `pkg/job` and are kept as parameters `ev 0` … `ev 7`. -/
def stateNameTable (ev : Fin 8 → String) : List String :=
  ["JobStateUnknown", ev 0, ev 1, ev 2, ev 3, ev 4, ev 5, ev 6, ev 7]

/-- `State.String()` on an arbitrary `int`-valued state `js`: ordinals
above 8 are formatted as `JobState<n>`; all others index the name table,
where a negative ordinal is an out-of-range index (run-time panic,
modelled as `none`). -/
def stateStringGo (ev : Fin 8 → String) (js : Int) : Option String :=
  if js > 8 then some ("JobState" ++ toString js)
  else goIndex (stateNameTable ev) js

end Job

namespace Server

/-! ## cmds/admin_server/server: the log-query pagination layer. -/

/-- `MaxPageSize` package variable. -/
def MaxPageSize : Nat := 100

/-- `DefaultPage` package variable. -/
def DefaultPage : Nat := 0

/-- `server.Query`: the bound HTTP query; all fields optional.  Dates are
opaque instants (modelled as integers). -/
structure Query where
  jobID : Option Nat
  text : Option String
  logLevel : Option String
  startDate : Option Int
  endDate : Option Int
  pageSize : Option Nat
  page : Option Nat

/-- `storage.Query` as populated by `ToStorageQuery` (package `storage`,
external: only the fields written here matter). -/
structure StorageQuery where
  jobID : Option Nat
  text : Option String
  logLevel : Option String
  startDate : Option Int
  endDate : Option Int
  pageSize : Nat
  page : Nat

/-- `Query.ToStorageQuery`: starts from the defaults
(`Page = DefaultPage`, `PageSize = MaxPageSize`), copies the filters, and
overrides page and page size from the request — the page size only when
one was given and it is strictly below `MaxPageSize`. -/
def Query.toStorageQuery (q : Query) : StorageQuery :=
  let sq : StorageQuery :=
    { jobID := q.jobID
      text := q.text
      logLevel := q.logLevel
      startDate := q.startDate
      endDate := q.endDate
      pageSize := MaxPageSize
      page := DefaultPage }
  let sq := match q.page with
    | some p => { sq with page := p }
    | none => sq
  match q.pageSize with
  | some ps => if ps < MaxPageSize then { sq with pageSize := ps } else sq
  | none => sq

end Server

namespace Exec

/-! ## plugins/teststeps/exec: the exec test-step plugin. -/

/-- The `bin` section of `stepParams`. -/
structure BinParams where
  path : String
  args : List String

/-- The `transport` section of `stepParams`; `options` stays raw JSON. -/
structure TransportParams where
  proto : String
  options : String

/-- The `constraints` section of `stepParams`. -/
structure ConstraintParams where
  timeQuota : Int

/-- `stepParams`: the exec step's parameter structure. -/
structure StepParams where
  bin : BinParams
  transport : TransportParams
  ocpOutput : Bool
  exitCodeMap : List (Int × String)
  constraints : ConstraintParams

/-- `test.TestStepParameters` (`map[string][]test.Param`): an association
list from parameter name to the raw JSON texts of its values. -/
abbrev TestStepParameters := List (String × List String)

/-- `TestStepParameters.GetOne(name).JSON()`: the raw JSON of the first
value under `name`, or the empty raw message when absent. -/
def getOne (ps : TestStepParameters) (k : String) : String :=
  match ps.lookup k with
  | some (v :: _) => v
  | _ => ""

/-- `populateParams`: unmarshal the `"bag"` parameter into `stepParams`.
`decode` stands for `encoding/json.Unmarshal` into the `stepParams`
struct (standard library; kept abstract), `none` being a decode error. -/
def populateParams (decode : String → Option StepParams)
    (params : TestStepParameters) : Option StepParams :=
  match decode (getOne params "bag") with
  | none => none
  | some sp => some sp

/-- Error message `populateParams` wraps every decode failure in. -/
def deserializeErr : String := "failed to deserialize parameters"

/-- A target handle as the plugin sees it (opaque). -/
abbrev GoTarget := Nat

/-- Outcome of one `Run` call: the returned checkpoint, the returned
error, and the per-target results that were processed. -/
structure RunOutcome where
  checkpoint : Option String
  err : Option String
  processed : List (GoTarget × Option String)
deriving DecidableEq

/-- Modelled from the spec: `teststeps.ForEachTarget` (package
`plugins/teststeps`, not among the sources) applies the per-target
function to each incoming target; per-target failures are absorbed
locally — reported on the target, never returned as the step's own error
— and absent cancellation the step returns a nil checkpoint and nil
error. -/
def forEachTarget (f : GoTarget → Option String) (targets : List GoTarget) :
    RunOutcome :=
  { checkpoint := none, err := none
    processed := targets.map (fun t => (t, f t)) }

/-- `TestStep.Run`: populate the parameters from the `"bag"` and, on
success, hand every target to the target runner via `ForEachTarget`;
on a parameter error return `(nil, err)` before touching any target.
`runner` stands for `NewTargetRunner(...).Run`. -/
def run (decode : String → Option StepParams)
    (runner : StepParams → GoTarget → Option String)
    (params : TestStepParameters) (targets : List GoTarget) : RunOutcome :=
  match populateParams decode params with
  | none => { checkpoint := none, err := some deserializeErr, processed := [] }
  | some sp => forEachTarget (runner sp) targets

/-- `TestStep.ValidateParameters`: delegates to `populateParams`;
`none` is a nil error. -/
def validateParameters (decode : String → Option StepParams)
    (params : TestStepParameters) : Option String :=
  match populateParams decode params with
  | none => some deserializeErr
  | some _ => none

/-- `var Name = "Exec"`. -/
def Name : String := "Exec"

/-- The Go zero value of `stepParams`. -/
def zeroStepParams : StepParams :=
  { bin := { path := "", args := [] }
    transport := { proto := "", options := "" }
    ocpOutput := false
    exitCodeMap := []
    constraints := { timeQuota := 0 } }

/-- The `TestStep` struct: it embeds `stepParams`. -/
structure TestStep where
  params : StepParams

/-- `TestStep.Name()`: returns the package-level `Name`. -/
def TestStep.stepName (_ : TestStep) : String := Name

/-- `New()`: a fresh `&TestStep{}` (zero-valued embedded params). -/
def NewStep : Unit → TestStep := fun _ => { params := zeroStepParams }

/-- Modelled from the spec: `Events` is the plugin's registered event
name list, declared in the plugin's events file (not among the sources);
no claim depends on its contents. -/
def Events : List String := []

/-- `Load()`: name, factory and events needed to register the step. -/
def Load : String × (Unit → TestStep) × List String := (Name, NewStep, Events)

end Exec

namespace Orch

/-! ## Pipeline orchestrator: target accounting and job state machine.

Modelled from the spec: the orchestrator code (job manager / test runner)
is not among the sources; this transition system renders §4.1, §4.2 and
§5 of the specification.  Targets are opaque handles; the in-flight,
acquired and released collections are multisets so that "released exactly
once" is multiset equality. -/

/-- A target handle. -/
abbrev Target := Nat

/-- Modelled from the spec: the orchestrator's bookkeeping — the
authoritative job state, the in-flight target set, and the running
multisets of all acquisitions and releases. -/
structure OrchState where
  jstate : Job.State
  inflight : Multiset Target
  acquired : Multiset Target
  released : Multiset Target
deriving DecidableEq

/-- The state before a job launches: `Unknown`, nothing acquired. -/
def initState : OrchState :=
  { jstate := .unknown, inflight := 0, acquired := 0, released := 0 }

/-- Modelled from the spec: one orchestrator step.  Acquisition only
while `Started`; a target leaving the pipeline (completed or failed) is
released as it leaves; pause and the terminal transitions commit only
with an empty in-flight set; cancellation from `Started`/`Paused` moves
to `Cancelling`, drains, and commits to `Cancelled` only once in-flight
is empty; timed-out pause/cancel attempts surface as `PauseFailed` /
`CancellationFailed`. -/
inductive OStep : OrchState → OrchState → Prop
  | start :
      OStep initState { initState with jstate := .started }
  | acquire (ts : Multiset Target) (s : OrchState) :
      s.jstate = .started →
      OStep s { s with inflight := s.inflight + ts, acquired := s.acquired + ts }
  | finishTarget (t : Target) (s : OrchState) :
      s.jstate = .started → t ∈ s.inflight →
      OStep s { s with inflight := s.inflight.erase t,
                       released := s.released + {t} }
  | complete (s : OrchState) :
      s.jstate = .started → s.inflight = 0 →
      OStep s { s with jstate := .completed }
  | fail (s : OrchState) :
      s.jstate = .started → s.inflight = 0 →
      OStep s { s with jstate := .failed }
  | pause (s : OrchState) :
      s.jstate = .started → s.inflight = 0 →
      OStep s { s with jstate := .paused }
  | pauseTimeout (s : OrchState) :
      s.jstate = .started →
      OStep s { s with jstate := .pauseFailed }
  | resume (s : OrchState) :
      s.jstate = .paused →
      OStep s { s with jstate := .started }
  | requestCancel (s : OrchState) :
      s.jstate = .started ∨ s.jstate = .paused →
      OStep s { s with jstate := .cancelling }
  | drainTarget (t : Target) (s : OrchState) :
      s.jstate = .cancelling → t ∈ s.inflight →
      OStep s { s with inflight := s.inflight.erase t,
                       released := s.released + {t} }
  | commitCancel (s : OrchState) :
      s.jstate = .cancelling → s.inflight = 0 →
      OStep s { s with jstate := .cancelled }
  | cancelTimeout (s : OrchState) :
      s.jstate = .cancelling →
      OStep s { s with jstate := .cancellationFailed }

/-- Reachability of an orchestrator state from launch. -/
def Reachable (s : OrchState) : Prop :=
  Relation.ReflTransGen OStep initState s

/-- The exit states of a job per the spec: success, step error, pause,
cancel. -/
def isExit (js : Job.State) : Prop :=
  js = .completed ∨ js = .failed ∨ js = .paused ∨ js = .cancelled

end Orch

namespace Job

/-! ## Sample inputs used by witnesses and counterexamples. -/

/-- A single (contentless) test descriptor. -/
def sampleStep : TestDescriptor := { raw := () }

/-- A reporting section with one final reporter and no run reporter. -/
def sampleReporting : Reporting :=
  { runReporters := [], finalReporters := [{ name := "TargetSuccess" }] }

/-- A well-formed descriptor: one step, one final reporter, a name. -/
def goodDesc : Descriptor :=
  { jobName := "test job"
    version := "1.0"
    tags := []
    runs := 1
    runInterval := 0
    testDescriptors := [sampleStep]
    reporting := sampleReporting
    targetManagerAcquireTimeout := none
    targetManagerReleaseTimeout := none }

/-- `goodDesc` with the job name removed: still one step and one
reporter. -/
def noNameDesc : Descriptor := { goodDesc with jobName := "" }

/-- `goodDesc` with both reporter lists emptied. -/
def noReporterDesc : Descriptor :=
  { goodDesc with reporting := { runReporters := [], finalReporters := [] } }

/-- `goodDesc` with the only test descriptor removed. -/
def noStepDesc : Descriptor := { goodDesc with testDescriptors := [] }

end Job

/-! ## Claim theorems -/

/-- Claim C6: the job `State` type defines exactly nine states, in the
order Unknown, Started, Completed, Failed, Paused, PauseFailed,
Cancelling, Cancelled, CancellationFailed, with Unknown as the zero
value. -/
theorem job_state_has_nine_ordered_states :
    Fintype.card Job.State = 9 ∧
    Job.State.ord .unknown = 0 ∧ Job.State.ord .started = 1 ∧
    Job.State.ord .completed = 2 ∧ Job.State.ord .failed = 3 ∧
    Job.State.ord .paused = 4 ∧ Job.State.ord .pauseFailed = 5 ∧
    Job.State.ord .cancelling = 6 ∧ Job.State.ord .cancelled = 7 ∧
    Job.State.ord .cancellationFailed = 8 := by
  decide

/-- Claim C7: the exec step plugin is registered under the same name it
reports: `Load()` returns the name `"Exec"` together with the factory,
and every step the factory produces answers that same string from its
`Name()` method. -/
theorem exec_load_name_round_trip :
    Exec.Load.1 = "Exec" ∧
    ∀ u : Unit, (Exec.Load.2.1 u).stepName = Exec.Load.1 :=
  ⟨rfl, fun _ => rfl⟩

/-- Claim C8: the version string produced by `CurrentDescriptorVersion()`
is accepted by `CheckVersion` (nil error). -/
theorem current_version_passes_check_version :
    Job.checkVersion Job.CurrentDescriptorVersion = none := by
  decide

/-- Claim C10: `ToStorageQuery` caps the page size at
`MaxPageSize = 100`: the requested size is kept only when strictly below
100, otherwise (and when absent) 100 is used; the page is the requested
one, or 0 when absent. -/
theorem to_storage_query_pagination (q : Server.Query) :
    q.toStorageQuery.pageSize =
      (match q.pageSize with
       | some ps => if ps < 100 then ps else 100
       | none => 100) ∧
    q.toStorageQuery.pageSize ≤ Server.MaxPageSize ∧
    q.toStorageQuery.page = q.page.getD 0 ∧
    Server.MaxPageSize = 100 := by
  rcases q with ⟨j, t, l, sd, ed, ps, p⟩
  rcases ps with _ | ps <;> rcases p with _ | p <;>
    simp [Server.Query.toStorageQuery, Server.MaxPageSize,
      Server.DefaultPage] <;>
    split <;> simp_all <;> omega

/-- Claim C5, counterexample: `State` is a Go `int`, and `String()` only
guards `js > 8`; at the negative state value `-1` the array index is out
of range and the method panics (`none`), so `String()` does not return a
string for every value of the type. -/
theorem state_string_panics_on_negative :
    Job.stateStringGo (fun _ => "EventName") (-1) = none := by
  decide

/-- Claim C5, amended: for every state value `js ≥ 0`, `String()` returns
without panicking — the table entry for ordinals 0 through 8
(`"JobStateUnknown"` at 0) and the text `JobState<n>` above 8 — while
every negative value panics with an index out of range. -/
theorem state_string_total_on_nonneg (ev : Fin 8 → String) (js : Int) :
    (js < 0 → Job.stateStringGo ev js = none) ∧
    (8 < js → Job.stateStringGo ev js = some ("JobState" ++ toString js)) ∧
    (0 ≤ js → js ≤ 8 →
      Job.stateStringGo ev js =
        some ((Job.stateNameTable ev).getD js.toNat "")) ∧
    Job.stateStringGo ev 0 = some "JobStateUnknown" := by
  refine ⟨?_, ?_, ?_, rfl⟩
  · intro h
    rw [Job.stateStringGo, if_neg (by omega), goIndex, if_pos h]
  · intro h
    rw [Job.stateStringGo, if_pos h]
  · intro h1 h2
    interval_cases js <;> rfl

/-- Witness for the amended C5 theorem at ordinal 3 of a concrete
table. -/
theorem state_string_total_on_nonneg_witness :
    Job.stateStringGo (fun _ => "EventName") 3 =
      some ((Job.stateNameTable (fun _ => "EventName")).getD 3 "") :=
  (state_string_total_on_nonneg (fun _ => "EventName") 3).2.2.1
    (by decide) (by decide)

/-- Claim C1, counterexample: `Validate` checks more than one-step /
one-reporter — `noNameDesc` has one test descriptor and one final
reporter, yet `Validate` returns an error because its job name is
empty. -/
theorem validate_rejects_despite_step_and_reporter :
    (Job.noNameDesc.testDescriptors.length ≥ 1 ∧
     Job.noNameDesc.reporting.runReporters.length +
       Job.noNameDesc.reporting.finalReporters.length ≥ 1) ∧
    Job.noNameDesc.validate ≠ none := by
  decide

/-- Claim C1, amended: a descriptor with at least one test descriptor, at
least one reporter, a non-empty job name, a non-negative run interval and
no empty or all-whitespace run-reporter name passes `Validate`; emptying
both reporter lists, or the test-descriptor list, makes `Validate`
reject. -/
theorem validate_accepts_and_rejects_amended (d : Job.Descriptor) :
    (d.testDescriptors.length ≥ 1 →
     d.reporting.runReporters.length + d.reporting.finalReporters.length ≥ 1 →
     d.jobName ≠ "" → 0 ≤ d.runInterval →
     (∀ r ∈ d.reporting.runReporters, ¬r.name.data.all goIsSpace) →
     d.validate = none) ∧
    (d.reporting.runReporters = [] → d.reporting.finalReporters = [] →
     d.validate ≠ none) ∧
    (d.testDescriptors = [] → d.validate ≠ none) := by
  refine ⟨?_, ?_, ?_⟩
  · intro h1 h2 h3 h4 h5
    have hany : ¬d.reporting.runReporters.any
        (fun r => r.name.data.all goIsSpace) = true := by
      simp only [List.any_eq_true, not_exists]
      intro r
      rintro ⟨hr, hall⟩
      exact h5 r hr hall
    rw [Job.Descriptor.validate, if_neg (by omega), if_neg h3,
      if_neg (by omega), if_neg (by omega), if_neg hany]
  · intro hr hf
    rw [Job.Descriptor.validate]
    split
    · exact Option.some_ne_none _
    · split
      · exact Option.some_ne_none _
      · split
        · exact Option.some_ne_none _
        · rw [if_pos (by simp [hr, hf])]
          exact Option.some_ne_none _
  · intro ht
    rw [Job.Descriptor.validate, if_pos (by simp [ht])]
    exact Option.some_ne_none _

/-- Witness for the amended C1 theorem: the good descriptor passes, the
reporterless and the stepless ones fail. -/
theorem validate_accepts_and_rejects_amended_witness :
    Job.goodDesc.validate = none ∧
    Job.noReporterDesc.validate ≠ none ∧
    Job.noStepDesc.validate ≠ none :=
  ⟨(validate_accepts_and_rejects_amended Job.goodDesc).1
      (by decide) (by decide) (by decide) (by decide) (by decide),
   (validate_accepts_and_rejects_amended Job.noReporterDesc).2.1 rfl rfl,
   (validate_accepts_and_rejects_amended Job.noStepDesc).2.2 rfl⟩

/-- Claim C2: `CheckVersion` returns a nil error exactly when the version
splits on the dot into two fields, both `Atoi`-parseable, the major equal
to the supported major version 1 and the minor not exceeding the
supported minor version 0; every other input draws an error. -/
theorem check_version_ok_iff (v : String) :
    Job.checkVersion v = none ↔
      ∃ a b : List Char, goSplitDot v.data = [a, b] ∧
        goAtoi (String.mk a) = some 1 ∧
        ∃ n : Int, goAtoi (String.mk b) = some n ∧ n ≤ 0 := by
  by_cases hv : v = ""
  · subst hv
    constructor
    · intro h
      simp [Job.checkVersion] at h
    · rintro ⟨a, b, hab, -⟩
      have hsplit : goSplitDot ("" : String).data = [[]] := rfl
      rw [hsplit] at hab
      simp at hab
  · rw [Job.checkVersion, if_neg hv]
    rcases h : goSplitDot v.data with _ | ⟨a, _ | ⟨b, _ | ⟨c, r⟩⟩⟩ <;>
      simp only [List.map_nil, List.map_cons]
    · simp [h]
    · simp [h]
    · rcases hA : goAtoi (String.mk a) with _ | m
      · simp [h, hA]
      · rcases hB : goAtoi (String.mk b) with _ | n
        · simp [h, hA, hB]
        · by_cases hc : m ≠ (1 : Int) ∨ n > (0 : Int)
          · have hcond : m ≠ (Job.JobDescriptorMajorVersion : Int) ∨
                n > (Job.JobDescriptorMinorVersion : Int) := by
              simpa [Job.JobDescriptorMajorVersion,
                Job.JobDescriptorMinorVersion] using hc
            simp only [hA, hB, if_pos hcond]
            constructor
            · intro habs
              exact absurd habs (Option.some_ne_none _)
            · rintro ⟨a', b', hab, hA', n', hB', hn'⟩
              simp only [List.cons.injEq, and_true] at hab
              obtain ⟨ha', hb'⟩ := hab
              subst ha'
              subst hb'
              rw [hA] at hA'
              rw [hB] at hB'
              simp only [Option.some.injEq] at hA' hB'
              omega
          · have hcond : ¬(m ≠ (Job.JobDescriptorMajorVersion : Int) ∨
                n > (Job.JobDescriptorMinorVersion : Int)) := by
              simpa [Job.JobDescriptorMajorVersion,
                Job.JobDescriptorMinorVersion] using hc
            simp only [hA, hB, if_neg hcond]
            push_neg at hc
            simp only [true_iff, eq_self_iff_true]
            exact ⟨a, b, rfl, by rw [hA, hc.1], n, hB, hc.2⟩
    · simp [h]

/-- Witness for the C2 theorem: the concrete version string `"1.0"`
satisfies the characterization, hence is accepted. -/
theorem check_version_ok_iff_witness :
    Job.checkVersion (String.mk ['1', '.', '0']) = none :=
  (check_version_ok_iff (String.mk ['1', '.', '0'])).mpr
    ⟨['1'], ['0'], by decide, by decide, 0, by decide, le_refl 0⟩

/-- Claim C9: for every decode function, runner and parameter set, the
exec plugin's `Run` and `ValidateParameters` agree on parameter validity
— `Run` returns a non-nil error exactly when `ValidateParameters` does,
namely when the `"bag"` parameter fails to deserialize — and in that case
`Run` returns a nil checkpoint with the error and processes no target. -/
theorem exec_run_validate_agree (decode : String → Option Exec.StepParams)
    (runner : Exec.StepParams → Exec.GoTarget → Option String)
    (params : Exec.TestStepParameters) (targets : List Exec.GoTarget) :
    ((Exec.run decode runner params targets).err ≠ none ↔
      Exec.validateParameters decode params ≠ none) ∧
    (Exec.validateParameters decode params ≠ none →
      Exec.run decode runner params targets =
        { checkpoint := none, err := some Exec.deserializeErr,
          processed := [] }) := by
  cases h : Exec.populateParams decode params <;>
    simp [Exec.run, Exec.validateParameters, Exec.forEachTarget, h]

/-- Witness for the C9 theorem: an always-failing decoder makes `Run`
return a nil checkpoint, the deserialization error, and no processed
target. -/
theorem exec_run_validate_agree_witness :
    Exec.run (fun _ => none) (fun _ _ => none) [] [] =
      { checkpoint := none, err := some Exec.deserializeErr,
        processed := [] } :=
  (exec_run_validate_agree (fun _ => none) (fun _ _ => none) [] []).2
    (by decide)

/-- Claim C3: in every reachable orchestrator state the released targets
plus the in-flight targets are exactly the acquired targets, and on every
exit path (success, step error, pause, cancel) the released multiset
equals the acquired multiset — every acquired target released exactly
once, no leaks. -/
theorem orch_releases_all_acquired (s : Orch.OrchState)
    (h : Orch.Reachable s) :
    s.released + s.inflight = s.acquired ∧
    (Orch.isExit s.jstate → s.released = s.acquired) := by
  induction h with
  | refl =>
    refine ⟨rfl, fun hexit => ?_⟩
    simp [Orch.isExit, Orch.initState] at hexit
  | @tail b c hab hbc ih =>
    obtain ⟨ih1, ih2⟩ := ih
    cases hbc with
    | start =>
      refine ⟨rfl, fun hexit => ?_⟩
      simp [Orch.isExit] at hexit
    | acquire ts u hst =>
      refine ⟨?_, fun hexit => ?_⟩
      · show b.released + (b.inflight + ts) = b.acquired + ts
        rw [← add_assoc, ih1]
      · simp [Orch.isExit, hst] at hexit
    | finishTarget t u hst hmem =>
      refine ⟨?_, fun hexit => ?_⟩
      · show b.released + {t} + b.inflight.erase t = b.acquired
        rw [add_assoc, Multiset.singleton_add, Multiset.cons_erase hmem, ih1]
      · simp [Orch.isExit, hst] at hexit
    | complete u hst hinf =>
      refine ⟨ih1, fun _ => ?_⟩
      show b.released = b.acquired
      rw [← ih1, hinf, add_zero]
    | fail u hst hinf =>
      refine ⟨ih1, fun _ => ?_⟩
      show b.released = b.acquired
      rw [← ih1, hinf, add_zero]
    | pause u hst hinf =>
      refine ⟨ih1, fun _ => ?_⟩
      show b.released = b.acquired
      rw [← ih1, hinf, add_zero]
    | pauseTimeout u hst =>
      refine ⟨ih1, fun hexit => ?_⟩
      simp [Orch.isExit] at hexit
    | resume u hst =>
      refine ⟨ih1, fun hexit => ?_⟩
      simp [Orch.isExit] at hexit
    | requestCancel u hst =>
      refine ⟨ih1, fun hexit => ?_⟩
      simp [Orch.isExit] at hexit
    | drainTarget t u hst hmem =>
      refine ⟨?_, fun hexit => ?_⟩
      · show b.released + {t} + b.inflight.erase t = b.acquired
        rw [add_assoc, Multiset.singleton_add, Multiset.cons_erase hmem, ih1]
      · simp [Orch.isExit, hst] at hexit
    | commitCancel u hst hinf =>
      refine ⟨ih1, fun _ => ?_⟩
      show b.released = b.acquired
      rw [← ih1, hinf, add_zero]
    | cancelTimeout u hst =>
      refine ⟨ih1, fun hexit => ?_⟩
      simp [Orch.isExit] at hexit

/-- Witness for the C3 theorem: a run that acquires target 0, passes it
through the pipeline and completes; the final state has released exactly
what it acquired. -/
theorem orch_releases_all_acquired_witness :
    (⟨.completed, 0, {0}, {0}⟩ : Orch.OrchState).released +
        (⟨.completed, 0, {0}, {0}⟩ : Orch.OrchState).inflight =
      (⟨.completed, 0, {0}, {0}⟩ : Orch.OrchState).acquired ∧
    (Orch.isExit (⟨.completed, 0, {0}, {0}⟩ : Orch.OrchState).jstate →
      (⟨.completed, 0, {0}, {0}⟩ : Orch.OrchState).released =
        (⟨.completed, 0, {0}, {0}⟩ : Orch.OrchState).acquired) := by
  have h1 : Orch.OStep Orch.initState ⟨.started, 0, 0, 0⟩ :=
    Orch.OStep.start
  have h2 : Orch.OStep ⟨.started, 0, 0, 0⟩ ⟨.started, {0}, {0}, 0⟩ :=
    Orch.OStep.acquire {0} ⟨.started, 0, 0, 0⟩ rfl
  have h3 : Orch.OStep ⟨.started, {0}, {0}, 0⟩ ⟨.started, 0, {0}, {0}⟩ :=
    Orch.OStep.finishTarget 0 ⟨.started, {0}, {0}, 0⟩ rfl (by decide)
  have h4 : Orch.OStep ⟨.started, 0, {0}, {0}⟩ ⟨.completed, 0, {0}, {0}⟩ :=
    Orch.OStep.complete ⟨.started, 0, {0}, {0}⟩ rfl rfl
  exact orch_releases_all_acquired _
    (Relation.ReflTransGen.head h1 (Relation.ReflTransGen.head h2
      (Relation.ReflTransGen.head h3 (Relation.ReflTransGen.single h4))))

/-- Claim C4: no orchestrator step moves the job from Started or Paused
directly to Cancelled, and any step that lands in Cancelled starts from
the observable Cancelling state with an empty in-flight set — every
cancellation passes through Cancelling and commits only once drained. -/
theorem orch_cancel_passes_through_cancelling (s t : Orch.OrchState)
    (h : Orch.OStep s t) :
    ((s.jstate = .started ∨ s.jstate = .paused) → t.jstate ≠ .cancelled) ∧
    (t.jstate = .cancelled → s.jstate = .cancelling ∧ s.inflight = 0) := by
  cases h <;> simp_all [Orch.initState]

/-- Witness for the C4 theorem at a concrete commit step: from
`Cancelling` with nothing in flight, the step to `Cancelled` indeed has a
`Cancelling` predecessor with an empty in-flight set. -/
theorem orch_cancel_passes_through_cancelling_witness :
    (((⟨.cancelling, 0, {0}, {0}⟩ : Orch.OrchState).jstate = .started ∨
      (⟨.cancelling, 0, {0}, {0}⟩ : Orch.OrchState).jstate = .paused) →
      (⟨.cancelled, 0, {0}, {0}⟩ : Orch.OrchState).jstate ≠ .cancelled) ∧
    ((⟨.cancelled, 0, {0}, {0}⟩ : Orch.OrchState).jstate = .cancelled →
      (⟨.cancelling, 0, {0}, {0}⟩ : Orch.OrchState).jstate = .cancelling ∧
      (⟨.cancelling, 0, {0}, {0}⟩ : Orch.OrchState).inflight = 0) :=
  orch_cancel_passes_through_cancelling _ _
    (Orch.OStep.commitCancel ⟨.cancelling, 0, {0}, {0}⟩ rfl rfl)
